import Mathlib

/-!
Shallow embedding of the frame-sharing and presentation pipeline of the
ReliabilityTestingCamera repository:

* `FrameRef`              — include/video/frame_ref.h
* `FrameBuffer`           — src/video/frame_buffer.cpp, include/video/frame_buffer.h
* `TripleBufferRenderer`  — src/video/triple_buffer_renderer.cpp / .h
* `TextureManager`        — src/video/texture_manager.cpp / .h

A cv::Mat pixel buffer is modelled as an explicit value (rows, cols,
row-major pixel list); `cv::Mat::clone()` produces an equal value placed in
a fresh heap cell.  The `std::shared_ptr<FrameData>` graph of `FrameRef` is
modelled by an explicit heap of `FrameData` cells, each carrying the
shared_ptr strong reference count and the atomic reader counter; a
`FrameRef` is the (possibly null) pointer held in its `data_` field.
OpenGL is modelled by an abstract id allocator that tracks live texture and
buffer names; GPU-side pixel transfer has no CPU-observable state in the
source and is therefore not part of the model, while the steady-clock
timestamp taken in `submit_frame` is passed in as an explicit argument.
-/

/-- cv::Mat: a 2-D pixel buffer with rows, cols and row-major pixel data. -/
structure Mat where
  rows : Nat
  cols : Nat
  data : List Nat
deriving DecidableEq, Repr

/-- cv::Mat::empty(): true when the buffer holds no pixels (total() == 0). -/
def Mat.isEmpty (m : Mat) : Bool := m.rows * m.cols == 0

/-- The default-constructed cv::Mat (the static empty_mat of frame_ref.h). -/
def Mat.emptyMat : Mat := ⟨0, 0, []⟩

/-- cv::Mat::clone(): a deep copy has equal pixel content; its independence
from the original is represented by storing it in a distinct heap cell. -/
def Mat.clone (m : Mat) : Mat := m

/-- FrameRef::FrameData together with the strong count of the shared_ptr
control block that owns it (`count` is what data_.use_count() reports). -/
structure FrameData where
  mat : Mat
  readers : Int
  count : Nat
deriving DecidableEq, Repr

/-- The heap of FrameData cells.  `next` is the next fresh address. -/
structure Heap where
  cells : List (Nat × FrameData)
  next : Nat
deriving DecidableEq, Repr

def Heap.emptyHeap : Heap := ⟨[], 0⟩

def cellsFind : List (Nat × FrameData) → Nat → Option FrameData
  | [], _ => none
  | c :: cs, p => if c.1 = p then some c.2 else cellsFind cs p

def cellsSet : List (Nat × FrameData) → Nat → FrameData → List (Nat × FrameData)
  | [], _, _ => []
  | c :: cs, p, d => if c.1 = p then (p, d) :: cellsSet cs p d else c :: cellsSet cs p d

def Heap.find (h : Heap) (p : Nat) : Option FrameData := cellsFind h.cells p

/-- Update the cell at `p` in place (no-op when the cell does not exist;
a FrameRef's data_ pointer always has a live control block in the source). -/
def Heap.mod (h : Heap) (p : Nat) (f : FrameData → FrameData) : Heap :=
  match h.find p with
  | some d => { h with cells := cellsSet h.cells p (f d) }
  | none => h

/-- Allocate a fresh FrameData cell (std::make_shared<FrameData>(...)). -/
def Heap.alloc (h : Heap) (d : FrameData) : Heap × Nat :=
  ({ cells := (h.next, d) :: h.cells, next := h.next + 1 }, h.next)

/-- shared_ptr copy: increment the strong count of the target cell. -/
def Heap.retain (h : Heap) (p : Nat) : Heap :=
  h.mod p (fun d => { d with count := d.count + 1 })

/-- shared_ptr release: decrement the strong count of the target cell. -/
def Heap.releasePtr (h : Heap) (p : Nat) : Heap :=
  h.mod p (fun d => { d with count := d.count - 1 })

/-- Mutation performed through the cv::Mat& that FrameRef::write returned. -/
def Heap.setMat (h : Heap) (p : Nat) (m : Mat) : Heap :=
  h.mod p (fun d => { d with mat := m })

/-- FrameRef: the data_ member, a possibly null shared_ptr<FrameData>
(null only after reset(); every constructor allocates a control block). -/
abbrev FrameRef := Option Nat

/-- FrameRef::FrameRef(const cv::Mat&): wraps the mat in a fresh cell with
use count 1 and no readers (also covers the cv::Mat&& constructor, which
differs only in not copying the cv::Mat header). -/
def FrameRef.ofMat (h : Heap) (m : Mat) : Heap × FrameRef :=
  let a := h.alloc ⟨m, 0, 1⟩
  (a.1, some a.2)

/-- FrameRef::FrameRef(): default constructor, an empty frame in a fresh cell. -/
def FrameRef.mkDefault (h : Heap) : Heap × FrameRef :=
  FrameRef.ofMat h Mat.emptyMat

/-- FrameRef copy constructor: shares the cell, incrementing its use count. -/
def FrameRef.share (h : Heap) (r : FrameRef) : Heap × FrameRef :=
  match r with
  | none => (h, none)
  | some p => (h.retain p, some p)

/-- Release this FrameRef's hold on its cell (shared_ptr destruction /
the release half of shared_ptr assignment). -/
def FrameRef.release (h : Heap) (r : FrameRef) : Heap :=
  match r with
  | none => h
  | some p => h.releasePtr p

/-- FrameRef copy assignment `dst = src`: retain src's cell, release the
cell dst previously held, and make dst hold src's cell. -/
def FrameRef.assign (h : Heap) (dst src : FrameRef) : Heap × FrameRef :=
  let s := FrameRef.share h src
  (FrameRef.release s.1 dst, s.2)

/-- FrameRef::read(): returns the current mat and increments the reader
count; a null data_ yields the static empty mat with no heap effect. -/
def FrameRef.read (h : Heap) (r : FrameRef) : Heap × Mat :=
  match r with
  | none => (h, Mat.emptyMat)
  | some p =>
    match h.find p with
    | none => (h, Mat.emptyMat)
    | some d => (h.mod p (fun e => { e with readers := e.readers + 1 }), d.mat)

/-- FrameRef::release_read(): decrements the reader count when data_ is
non-null (no lower bound is enforced in the source). -/
def FrameRef.release_read (h : Heap) (r : FrameRef) : Heap :=
  match r with
  | none => h
  | some p => h.mod p (fun e => { e with readers := e.readers - 1 })

/-- FrameRef::write(): copy-on-write access.  Returns the heap, the new
value of data_, and the address of the cell whose mat the returned
cv::Mat& designates.  A null data_ is re-seated on a fresh empty cell;
otherwise the frame is cloned into a fresh cell exactly when the cell is
shared (use count not 1) or has a positive reader count, releasing the
previously held cell. -/
def FrameRef.write (h : Heap) (r : FrameRef) : Heap × FrameRef × Nat :=
  match r with
  | none =>
    let a := h.alloc ⟨Mat.emptyMat, 0, 1⟩
    (a.1, some a.2, a.2)
  | some p =>
    match h.find p with
    | none => (h, some p, p)
    | some d =>
      if d.count ≠ 1 ∨ d.readers > 0 then
        let a := h.alloc ⟨d.mat.clone, 0, 1⟩
        (a.1.releasePtr p, some a.2, a.2)
      else
        (h, some p, p)

/-- FrameRef::empty(): !data_ || data_->mat_.empty(). -/
def FrameRef.isEmptyRef (h : Heap) (r : FrameRef) : Bool :=
  match r with
  | none => true
  | some p =>
    match h.find p with
    | none => true
    | some d => d.mat.isEmpty

/-- FrameRef::size(): (width, height) = (cols, rows), (0,0) when null. -/
def FrameRef.sizeOf (h : Heap) (r : FrameRef) : Nat × Nat :=
  match r with
  | none => (0, 0)
  | some p =>
    match h.find p with
    | none => (0, 0)
    | some d => (d.mat.cols, d.mat.rows)

/-- FrameRef::use_count(): the shared_ptr strong count, 0 when null. -/
def FrameRef.use_count (h : Heap) (r : FrameRef) : Nat :=
  match r with
  | none => 0
  | some p =>
    match h.find p with
    | none => 0
    | some d => d.count

/-- FrameRef::reader_count(): the reader counter, 0 when null. -/
def FrameRef.reader_count (h : Heap) (r : FrameRef) : Int :=
  match r with
  | none => 0
  | some p =>
    match h.find p with
    | none => 0
    | some d => d.readers

/-- FrameRef::clone(): an explicit deep copy; empty or null frames yield a
default-constructed FrameRef (which allocates a fresh empty cell). -/
def FrameRef.cloneRef (h : Heap) (r : FrameRef) : Heap × FrameRef :=
  match r with
  | none => FrameRef.mkDefault h
  | some p =>
    match h.find p with
    | none => FrameRef.mkDefault h
    | some d =>
      if d.mat.isEmpty then FrameRef.mkDefault h
      else FrameRef.ofMat h d.mat.clone

/-- FrameRef::reset(): data_.reset(), releasing the held cell. -/
def FrameRef.resetRef (h : Heap) (r : FrameRef) : Heap × FrameRef :=
  (FrameRef.release h r, none)

/-!  FrameBuffer (the spec's HandoffSlot), src/video/frame_buffer.cpp.  -/

/-- FrameBuffer state: the stored FrameRef, the consumed flag, and the two
monotone counters (frame_buffer.h lines 72-77). -/
structure FrameBuffer where
  current_frame : FrameRef
  frame_consumed : Bool
  frames_dropped : Nat
  frames_generated : Nat
deriving DecidableEq, Repr

/-- A freshly constructed FrameBuffer: default-constructed current_frame_
(which allocates an empty cell), frame_consumed_ = true, counters 0. -/
def FrameBuffer.init (h : Heap) : Heap × FrameBuffer :=
  let a := FrameRef.mkDefault h
  (a.1, ⟨a.2, true, 0, 0⟩)

/-- FrameBuffer::store_frame(const FrameRef&) (frame_buffer.cpp 24-40):
empty frames are ignored; when the previous frame is unconsumed the new
frame is dropped and the drop counter incremented; otherwise the frame is
shared into the slot, marked unconsumed and the generated counter bumped. -/
def FrameBuffer.store_frame (h : Heap) (fb : FrameBuffer) (r : FrameRef) :
    Heap × FrameBuffer :=
  if FrameRef.isEmptyRef h r then (h, fb)
  else if fb.frame_consumed = false then
    (h, { fb with frames_dropped := fb.frames_dropped + 1 })
  else
    let a := FrameRef.assign h fb.current_frame r
    (a.1, { fb with current_frame := a.2, frame_consumed := false,
                    frames_generated := fb.frames_generated + 1 })

/-- FrameBuffer::consume_frame() (frame_buffer.cpp 60-70): returns nothing
when already consumed, else marks consumed and returns a copy of the slot
(sharing the stored frame's cell; the slot itself is not cleared). -/
def FrameBuffer.consume_frame (h : Heap) (fb : FrameBuffer) :
    Heap × FrameBuffer × Option FrameRef :=
  if fb.frame_consumed then (h, fb, none)
  else
    let a := FrameRef.share h fb.current_frame
    (a.1, { fb with frame_consumed := true }, some a.2)

/-- FrameBuffer::has_unconsumed_frame(). -/
def FrameBuffer.has_unconsumed_frame (fb : FrameBuffer) : Bool :=
  fb.frame_consumed = false

/-- Iterated store_frame calls, for the drop-accounting property. -/
def FrameBuffer.store_all (h : Heap) (fb : FrameBuffer) :
    List FrameRef → Heap × FrameBuffer
  | [] => (h, fb)
  | r :: rs =>
    let a := FrameBuffer.store_frame h fb r
    FrameBuffer.store_all a.1 a.2 rs

/-!  Abstract OpenGL state: glGenTextures / glGenBuffers hand out fresh
nonzero names, glDeleteTextures / glDeleteBuffers retire them; deleting a
name that is not live records a bad deletion.  -/

structure GLState where
  next_id : Nat
  live_tex : List Nat
  live_buf : List Nat
  bad_delete : Bool
deriving DecidableEq, Repr

/-- A fresh GL context; names are handed out starting at 1 (0 is the null
texture name). -/
def GLState.init : GLState := ⟨1, [], [], false⟩

def GLState.genTex (g : GLState) : GLState × Nat :=
  ({ g with next_id := g.next_id + 1, live_tex := g.next_id :: g.live_tex }, g.next_id)

def GLState.genBuf (g : GLState) : GLState × Nat :=
  ({ g with next_id := g.next_id + 1, live_buf := g.next_id :: g.live_buf }, g.next_id)

def GLState.delTex (g : GLState) (id : Nat) : GLState :=
  if id ∈ g.live_tex then { g with live_tex := g.live_tex.erase id }
  else { g with bad_delete := true }

def GLState.delBuf (g : GLState) (id : Nat) : GLState :=
  if id ∈ g.live_buf then { g with live_buf := g.live_buf.erase id }
  else { g with bad_delete := true }

/-!  TripleBufferRenderer (the spec's RotatingPresentationBuffer),
src/video/triple_buffer_renderer.cpp.  -/

/-- TripleBufferRenderer::BufferSlot (triple_buffer_renderer.h 88-94). -/
structure BufferSlot where
  frame : FrameRef
  texture : Nat
  pbo : Nat
  ready : Bool
  timestamp : Nat
deriving DecidableEq, Repr

/-- TripleBufferRenderer state (triple_buffer_renderer.h 101-111): the
three slots, the three atomic role indices and the lazily created GL
resource bookkeeping. -/
structure TripleBufferRenderer where
  b0 : BufferSlot
  b1 : BufferSlot
  b2 : BufferSlot
  write_idx : Nat
  upload_idx : Nat
  display_idx : Nat
  width : Nat
  height : Nat
  initialized : Bool
deriving DecidableEq, Repr

/-- buffers_[i] (indices used by the source are always 0, 1 or 2). -/
def TripleBufferRenderer.getSlot (t : TripleBufferRenderer) (i : Nat) : BufferSlot :=
  match i with
  | 0 => t.b0
  | 1 => t.b1
  | _ => t.b2

/-- buffers_[i] = v. -/
def TripleBufferRenderer.setSlot (t : TripleBufferRenderer) (i : Nat) (v : BufferSlot) :
    TripleBufferRenderer :=
  match i with
  | 0 => { t with b0 := v }
  | 1 => { t with b1 := v }
  | _ => { t with b2 := v }

/-- A freshly constructed TripleBufferRenderer: three default slots (each
default-constructs its FrameRef), indices (0,1,2), no GL resources. -/
def TripleBufferRenderer.init (h : Heap) : Heap × TripleBufferRenderer :=
  let a0 := FrameRef.mkDefault h
  let a1 := FrameRef.mkDefault a0.1
  let a2 := FrameRef.mkDefault a1.1
  (a2.1,
   { b0 := ⟨a0.2, 0, 0, false, 0⟩
     b1 := ⟨a1.2, 0, 0, false, 0⟩
     b2 := ⟨a2.2, 0, 0, false, 0⟩
     write_idx := 0, upload_idx := 1, display_idx := 2
     width := 0, height := 0, initialized := false })

/-- Per-slot cleanup performed by the reset() loop (triple_buffer_renderer.cpp
173-184): delete nonzero texture and pbo names, release the frame, clear
the ready flag. -/
def TripleBufferRenderer.resetSlot (h : Heap) (g : GLState) (s : BufferSlot) :
    Heap × GLState × BufferSlot :=
  let g := if s.texture ≠ 0 then g.delTex s.texture else g
  let g := if s.pbo ≠ 0 then g.delBuf s.pbo else g
  let a := FrameRef.resetRef h s.frame
  (a.1, g, { s with texture := 0, pbo := 0, frame := a.2, ready := false })

/-- TripleBufferRenderer::reset() (triple_buffer_renderer.cpp 167-189):
a no-op unless GL resources were created; otherwise deletes them, resets
each slot and clears the cached size.  The role indices are not touched. -/
def TripleBufferRenderer.reset (h : Heap) (g : GLState) (t : TripleBufferRenderer) :
    Heap × GLState × TripleBufferRenderer :=
  if t.initialized = false then (h, g, t)
  else
    let r0 := TripleBufferRenderer.resetSlot h g t.b0
    let r1 := TripleBufferRenderer.resetSlot r0.1 r0.2.1 t.b1
    let r2 := TripleBufferRenderer.resetSlot r1.1 r1.2.1 t.b2
    (r2.1, r2.2.1,
     { t with b0 := r0.2.2, b1 := r1.2.2, b2 := r2.2.2,
              width := 0, height := 0, initialized := false })

/-- TripleBufferRenderer::ensure_gl_resources_created (triple_buffer_renderer.cpp
32-61): lazily (re)creates one texture and one PBO per slot for the given
size, resetting first when the size changed, and records the size. -/
def TripleBufferRenderer.ensure_gl (h : Heap) (g : GLState) (t : TripleBufferRenderer)
    (w hh : Nat) : Heap × GLState × TripleBufferRenderer :=
  if t.initialized = true ∧ w = t.width ∧ hh = t.height then (h, g, t)
  else
    let r := if t.initialized = true then TripleBufferRenderer.reset h g t else (h, g, t)
    let h := r.1
    let g := r.2.1
    let t := r.2.2
    let t := { t with width := w, height := hh }
    let g0t := g.genTex
    let g0p := g0t.1.genBuf
    let g1t := g0p.1.genTex
    let g1p := g1t.1.genBuf
    let g2t := g1p.1.genTex
    let g2p := g2t.1.genBuf
    (h, g2p.1,
     { t with b0 := { t.b0 with texture := g0t.2, pbo := g0p.2 }
              b1 := { t.b1 with texture := g1t.2, pbo := g1p.2 }
              b2 := { t.b2 with texture := g2t.2, pbo := g2p.2 }
              initialized := true })

/-- TripleBufferRenderer::async_upload_frame (triple_buffer_renderer.cpp
63-105) on buffers_[i]: returns early for an empty frame, otherwise takes
a ReadGuard on the slot's frame, ensures GL resources exist for the frame
size, performs the PBO transfer (GPU-side only, not modelled) and drops
the guard.  The guard's release_read acts on the slot's FrameRef member as
it is after ensure_gl (a resize path resets it to null, making the release
a no-op, exactly as in the source). -/
def TripleBufferRenderer.async_upload (h : Heap) (g : GLState)
    (t : TripleBufferRenderer) (i : Nat) : Heap × GLState × TripleBufferRenderer :=
  let slot := t.getSlot i
  if FrameRef.isEmptyRef h slot.frame then (h, g, t)
  else
    let rd := FrameRef.read h slot.frame
    let e := TripleBufferRenderer.ensure_gl rd.1 g t rd.2.cols rd.2.rows
    let h2 := FrameRef.release_read e.1 ((e.2.2.getSlot i).frame)
    (h2, e.2.1, e.2.2)

/-- TripleBufferRenderer::submit_frame(const FrameRef&) (triple_buffer_renderer.cpp
107-120): empty frames are ignored; otherwise the frame is shared into the
slot named by write_idx_, stamped with the current steady-clock reading
(`now`) and marked ready. -/
def TripleBufferRenderer.submit_frame (h : Heap) (t : TripleBufferRenderer)
    (r : FrameRef) (now : Nat) : Heap × TripleBufferRenderer :=
  if FrameRef.isEmptyRef h r then (h, t)
  else
    let idx := t.write_idx
    let slot := t.getSlot idx
    let a := FrameRef.assign h slot.frame r
    (a.1, t.setSlot idx { slot with frame := a.2, timestamp := now, ready := true })

/-- TripleBufferRenderer::update() (triple_buffer_renderer.cpp 137-156):
loads write_idx_ and upload_idx_ into locals; when the write slot is ready
it stores upload_idx into write_idx_ and write_idx into upload_idx_,
clears the old write slot's ready flag, uploads buffers_[upload_idx]
(the stale local), then loads display_idx_ and stores it into upload_idx_
and the stale local upload_idx into display_idx_. -/
def TripleBufferRenderer.update (h : Heap) (g : GLState) (t : TripleBufferRenderer) :
    Heap × GLState × TripleBufferRenderer :=
  let write_idx := t.write_idx
  let upload_idx := t.upload_idx
  if (t.getSlot write_idx).ready = true then
    let t := { t with write_idx := upload_idx, upload_idx := write_idx }
    let t := t.setSlot write_idx { t.getSlot write_idx with ready := false }
    let u := TripleBufferRenderer.async_upload h g t upload_idx
    let t := u.2.2
    let display_idx := t.display_idx
    let t := { t with upload_idx := display_idx, display_idx := upload_idx }
    (u.1, u.2.1, t)
  else
    (h, g, t)

/-- TripleBufferRenderer::get_texture_id() (triple_buffer_renderer.cpp
158-165): 0 until GL resources exist, else the display slot's texture. -/
def TripleBufferRenderer.get_texture_id (t : TripleBufferRenderer) : Nat :=
  if t.initialized = false then 0
  else (t.getSlot t.display_idx).texture

/-!  TextureManager (the PresentationSink), src/video/texture_manager.cpp.  -/

/-- TextureManager state (texture_manager.h 65-72). -/
structure TextureManager where
  texture_id : Nat
  width : Nat
  height : Nat
  last_frame : FrameRef
deriving DecidableEq, Repr

/-- A freshly constructed TextureManager: no texture yet, default
last_frame_ (which allocates an empty cell). -/
def TextureManager.init (h : Heap) : Heap × TextureManager :=
  let a := FrameRef.mkDefault h
  (a.1, ⟨0, 0, 0, a.2⟩)

/-- TextureManager::ensure_texture_created (texture_manager.cpp 16-27). -/
def TextureManager.ensure_texture_created (g : GLState) (tm : TextureManager) :
    GLState × TextureManager :=
  if tm.texture_id = 0 then
    let a := g.genTex
    (a.1, { tm with texture_id := a.2 })
  else (g, tm)

/-- TextureManager::upload_frame(const FrameRef&) (texture_manager.cpp
63-115): empty refs are ignored; otherwise a ReadGuard is taken, empty or
degenerate mats abandon the upload, else the texture is (lazily) created,
the pixels are transferred (GPU-side, not modelled), the cached size is
updated and the ref is shared into last_frame_; the guard is released on
every exit path. -/
def TextureManager.upload_frame (h : Heap) (g : GLState) (tm : TextureManager)
    (r : FrameRef) : Heap × GLState × TextureManager :=
  if FrameRef.isEmptyRef h r then (h, g, tm)
  else
    let rd := FrameRef.read h r
    let h := rd.1
    let m := rd.2
    if m.isEmpty then (FrameRef.release_read h r, g, tm)
    else if m.cols = 0 ∨ m.rows = 0 then (FrameRef.release_read h r, g, tm)
    else
      let e := TextureManager.ensure_texture_created g tm
      let a := FrameRef.assign h tm.last_frame r
      (FrameRef.release_read a.1 r, e.1,
       { e.2 with width := m.cols, height := m.rows, last_frame := a.2 })

/-- TextureManager::reset() (texture_manager.cpp 117-125): deletes the
texture when one exists, zeroes the cached size and releases last_frame_. -/
def TextureManager.reset (h : Heap) (g : GLState) (tm : TextureManager) :
    Heap × GLState × TextureManager :=
  let g := if tm.texture_id ≠ 0 then g.delTex tm.texture_id else g
  let a := FrameRef.resetRef h tm.last_frame
  (a.1, g, { tm with texture_id := 0, width := 0, height := 0, last_frame := a.2 })

/-!  A population of FrameRef instances over one heap, for the
copy-on-write isolation property (spec §8.1).  -/

/-- A set of FrameRef instances (addressed by position) sharing one heap. -/
structure World where
  heap : Heap
  refs : List FrameRef
deriving DecidableEq, Repr

/-- The FrameRef operations of the isolation property: construction from a
mat, copy-construction (sharing), clone, read, release_read and write.
Each index addresses an existing instance; out-of-range indices are
no-ops. -/
inductive Op where
  | ofMatOp (m : Mat)
  | shareOp (i : Nat)
  | cloneOp (i : Nat)
  | readOp (i : Nat)
  | releaseReadOp (i : Nat)
  | writeOp (i : Nat)
deriving DecidableEq, Repr

/-- The i-th instance (none when out of range). -/
def nthRef : List FrameRef → Nat → FrameRef
  | [], _ => none
  | r :: _, 0 => r
  | _ :: rs, n + 1 => nthRef rs n

/-- Replace the i-th instance. -/
def updateRef : List FrameRef → Nat → FrameRef → List FrameRef
  | [], _, _ => []
  | _ :: rs, 0, v => v :: rs
  | r :: rs, n + 1, v => r :: updateRef rs n v

/-- How many instances hold the cell at p. -/
def countRefs : List FrameRef → Nat → Nat
  | [], _ => 0
  | r :: rs, p => (if r = some p then 1 else 0) + countRefs rs p

/-- One operation on the population. -/
def World.step (w : World) (op : Op) : World :=
  match op with
  | .ofMatOp m =>
    let a := FrameRef.ofMat w.heap m
    ⟨a.1, w.refs ++ [a.2]⟩
  | .shareOp i =>
    if i < w.refs.length then
      let a := FrameRef.share w.heap (nthRef w.refs i)
      ⟨a.1, w.refs ++ [a.2]⟩
    else w
  | .cloneOp i =>
    if i < w.refs.length then
      let a := FrameRef.cloneRef w.heap (nthRef w.refs i)
      ⟨a.1, w.refs ++ [a.2]⟩
    else w
  | .readOp i =>
    if i < w.refs.length then
      ⟨(FrameRef.read w.heap (nthRef w.refs i)).1, w.refs⟩
    else w
  | .releaseReadOp i =>
    if i < w.refs.length then
      ⟨FrameRef.release_read w.heap (nthRef w.refs i), w.refs⟩
    else w
  | .writeOp i =>
    if i < w.refs.length then
      let a := FrameRef.write w.heap (nthRef w.refs i)
      ⟨a.1, updateRef w.refs i a.2.1⟩
    else w

/-- Run a sequence of operations. -/
def World.run (w : World) : List Op → World
  | [] => w
  | op :: ops => World.run (w.step op) ops

/-- The common origin: a single FrameRef wrapping one pixel buffer. -/
def World.init (m : Mat) : World :=
  let a := FrameRef.ofMat Heap.emptyHeap m
  ⟨a.1, [a.2]⟩

/-- What a holder observes through the public API: the pixel buffer that
read() returns, and the size() result. -/
def observeRef (h : Heap) (r : FrameRef) : Mat × Nat × Nat :=
  ((FrameRef.read h r).2, FrameRef.sizeOf h r)

/-- Call write() on instance i and then mutate the returned cv::Mat& to
`m`: the resulting heap. -/
def writeThenMutate (w : World) (i : Nat) (m : Mat) : Heap :=
  let a := FrameRef.write w.heap (nthRef w.refs i)
  Heap.setMat a.1 a.2.2 m

/-- The strong count recorded in the cell at p (0 when absent). -/
def heapCount (h : Heap) (p : Nat) : Nat :=
  match h.find p with
  | some d => d.count
  | none => 0

/-- Heap/population consistency: every cell's strong count is the number
of instances holding it, and addresses at or above `next` are free. -/
def World.Inv (w : World) : Prop :=
  (∀ p, heapCount w.heap p = countRefs w.refs p) ∧
  (∀ p, w.heap.next ≤ p → w.heap.find p = none)

/-- Two heaps agree on every cell's pixel buffer (counts may differ). -/
def MatsAgree (h1 h2 : Heap) : Prop :=
  ∀ t, (h1.find t).map FrameData.mat = (h2.find t).map FrameData.mat

/-!  Concrete executions used by the counterexamples and witnesses.  -/

/-- A fresh FrameBuffer over the empty heap. -/
def exFB : Heap × FrameBuffer := FrameBuffer.init Heap.emptyHeap

/-- A 1×1 frame with pixel 7. -/
def exF1 : Heap × FrameRef := FrameRef.ofMat exFB.1 ⟨1, 1, [7]⟩

/-- A 1×1 frame with pixel 9. -/
def exF2 : Heap × FrameRef := FrameRef.ofMat exF1.1 ⟨1, 1, [9]⟩

/-- Two stores with no intervening consume (the claim's N = 2). -/
def exStores : Heap × FrameBuffer :=
  FrameBuffer.store_all exF2.1 exFB.2 [exF1.2, exF2.2]

/-- The consume that follows the two stores. -/
def exConsume : Heap × FrameBuffer × Option FrameRef :=
  FrameBuffer.consume_frame exStores.1 exStores.2

/-- A fresh TripleBufferRenderer over the empty heap. -/
def exRT0 : Heap × TripleBufferRenderer := TripleBufferRenderer.init Heap.emptyHeap

/-- A 1×1 frame submitted to it. -/
def exRF : Heap × FrameRef := FrameRef.ofMat exRT0.1 ⟨1, 1, [5]⟩

/-- The renderer after one submit_frame of a non-empty frame. -/
def exRSub : Heap × TripleBufferRenderer :=
  TripleBufferRenderer.submit_frame exRF.1 exRT0.2 exRF.2 0

/-- The renderer after that submit and one update. -/
def exRUpd : Heap × GLState × TripleBufferRenderer :=
  TripleBufferRenderer.update exRSub.1 GLState.init exRSub.2

/-- reset() applied to the post-update renderer. -/
def exRRst : Heap × GLState × TripleBufferRenderer :=
  TripleBufferRenderer.reset exRUpd.1 exRUpd.2.1 exRUpd.2.2

/-- A 1×5 frame. -/
def exRG1 : Heap × FrameRef := FrameRef.ofMat exRRst.1 ⟨1, 5, [2, 2, 2, 2, 2]⟩

/-- A 1×6 frame. -/
def exRG2 : Heap × FrameRef := FrameRef.ofMat exRG1.1 ⟨1, 6, [3, 3, 3, 3, 3, 3]⟩

/-- The reset renderer after the suffix [submit 1×5, update, submit 1×6,
update]. -/
def exRSuf : Heap × GLState × TripleBufferRenderer :=
  let s2 := TripleBufferRenderer.submit_frame exRG2.1 exRRst.2.2 exRG1.2 2
  let u2 := TripleBufferRenderer.update s2.1 exRRst.2.1 s2.2
  let s3 := TripleBufferRenderer.submit_frame u2.1 u2.2.2 exRG2.2 3
  TripleBufferRenderer.update s3.1 u2.2.1 s3.2

/-- A freshly constructed renderer in the same context. -/
def exRFresh : Heap × TripleBufferRenderer := TripleBufferRenderer.init exRG2.1

/-- The fresh renderer after the identical suffix. -/
def exRSufFresh : Heap × GLState × TripleBufferRenderer :=
  let s2 := TripleBufferRenderer.submit_frame exRFresh.1 exRFresh.2 exRG1.2 2
  let u2 := TripleBufferRenderer.update s2.1 exRRst.2.1 s2.2
  let s3 := TripleBufferRenderer.submit_frame u2.1 u2.2.2 exRG2.2 3
  TripleBufferRenderer.update s3.1 u2.2.1 s3.2

/-- A heap with a single shared cell (use count 2) holding a 1×1 frame. -/
def exHeapShared : Heap := ⟨[(0, ⟨⟨1, 1, [3]⟩, 0, 2⟩)], 1⟩

/-- A heap with a single exclusively owned cell holding a 1×1 frame. -/
def exHeapOwn : Heap := ⟨[(0, ⟨⟨1, 1, [3]⟩, 0, 1⟩)], 1⟩

/-- A FrameBuffer holding an unconsumed frame backed by cell 0 of
exHeapOwn. -/
def exFBHold : FrameBuffer := ⟨some 0, false, 0, 0⟩

/-!  Basic heap lemmas.  -/

theorem cellsFind_set_ne (cs : List (Nat × FrameData)) (p q : Nat) (d : FrameData)
    (hne : q ≠ p) : cellsFind (cellsSet cs p d) q = cellsFind cs q := by
  induction cs with
  | nil => rfl
  | cons c cs ih =>
    by_cases hc : c.1 = p
    · simp [cellsSet, hc, cellsFind, Ne.symm hne, ih]
    · simp only [cellsSet, hc, if_false, cellsFind]
      by_cases hq : c.1 = q <;> simp [hq, ih]

theorem cellsFind_set_self (cs : List (Nat × FrameData)) (p : Nat) (d d0 : FrameData)
    (h : cellsFind cs p = some d0) : cellsFind (cellsSet cs p d) p = some d := by
  induction cs with
  | nil => simp [cellsFind] at h
  | cons c cs ih =>
    by_cases hc : c.1 = p
    · simp [cellsSet, hc, cellsFind]
    · have h2 : cellsFind cs p = some d0 := by simpa [cellsFind, hc] using h
      simp [cellsSet, hc, cellsFind, ih h2]

theorem find_mod_ne (h : Heap) (p q : Nat) (f : FrameData → FrameData)
    (hne : q ≠ p) : (h.mod p f).find q = h.find q := by
  unfold Heap.mod
  cases hf : h.find p with
  | none => rfl
  | some d => exact cellsFind_set_ne h.cells p q (f d) hne

theorem find_mod_self (h : Heap) (p : Nat) (f : FrameData → FrameData) (d : FrameData)
    (hf : h.find p = some d) : (h.mod p f).find p = some (f d) := by
  unfold Heap.mod
  rw [hf]
  exact cellsFind_set_self h.cells p (f d) d hf

theorem mod_next (h : Heap) (p : Nat) (f : FrameData → FrameData) :
    (h.mod p f).next = h.next := by
  unfold Heap.mod
  cases h.find p <;> rfl

theorem find_alloc_self (h : Heap) (d : FrameData) :
    ((h.alloc d).1).find h.next = some d := by
  simp [Heap.alloc, Heap.find, cellsFind]

theorem find_alloc_ne (h : Heap) (d : FrameData) (q : Nat) (hne : q ≠ h.next) :
    ((h.alloc d).1).find q = h.find q := by
  simp [Heap.alloc, Heap.find, cellsFind, Ne.symm hne]

theorem alloc_next (h : Heap) (d : FrameData) : ((h.alloc d).1).next = h.next + 1 := rfl

/-!  Pixel-content congruence: operations that only touch counts leave
every observation unchanged.  -/

theorem matsAgree_mod (h : Heap) (p : Nat) (f : FrameData → FrameData)
    (hf : ∀ d, (f d).mat = d.mat) : MatsAgree (h.mod p f) h := by
  intro t
  by_cases ht : t = p
  · subst ht
    cases hp : h.find t with
    | none => simp [Heap.mod, hp]
    | some d => rw [find_mod_self h t f d hp]; simp [hf]
  · rw [find_mod_ne h p t f ht]

theorem matsAgree_trans (h1 h2 h3 : Heap) (a : MatsAgree h1 h2) (b : MatsAgree h2 h3) :
    MatsAgree h1 h3 := fun t => (a t).trans (b t)

theorem matsAgree_retain (h : Heap) (p : Nat) : MatsAgree (h.retain p) h :=
  matsAgree_mod h p _ (fun _ => rfl)

theorem matsAgree_releasePtr (h : Heap) (p : Nat) : MatsAgree (h.releasePtr p) h :=
  matsAgree_mod h p _ (fun _ => rfl)

theorem matsAgree_release (h : Heap) (r : FrameRef) : MatsAgree (FrameRef.release h r) h := by
  cases r with
  | none => exact fun t => rfl
  | some p => exact matsAgree_releasePtr h p

theorem matsAgree_share (h : Heap) (r : FrameRef) : MatsAgree (FrameRef.share h r).1 h := by
  cases r with
  | none => exact fun t => rfl
  | some p => exact matsAgree_retain h p

theorem matsAgree_assign (h : Heap) (dst src : FrameRef) :
    MatsAgree (FrameRef.assign h dst src).1 h := by
  unfold FrameRef.assign
  exact matsAgree_trans _ _ _ (matsAgree_release _ dst) (matsAgree_share h src)

theorem matsAgree_read (h : Heap) (r : FrameRef) : MatsAgree (FrameRef.read h r).1 h := by
  cases r with
  | none => exact fun t => rfl
  | some p =>
    simp only [FrameRef.read]
    cases hf : h.find p with
    | none => exact fun t => rfl
    | some d => exact matsAgree_mod h p _ (fun _ => rfl)

theorem matsAgree_release_read (h : Heap) (r : FrameRef) :
    MatsAgree (FrameRef.release_read h r) h := by
  cases r with
  | none => exact fun t => rfl
  | some p => exact matsAgree_mod h p _ (fun _ => rfl)

theorem isEmptyRef_congr (h1 h2 : Heap) (r : FrameRef) (hm : MatsAgree h1 h2) :
    FrameRef.isEmptyRef h1 r = FrameRef.isEmptyRef h2 r := by
  cases r with
  | none => rfl
  | some p =>
    have hp := hm p
    cases e1 : h1.find p with
    | none =>
      cases e2 : h2.find p with
      | none => simp [FrameRef.isEmptyRef, e1, e2]
      | some d2 => rw [e1, e2] at hp; simp at hp
    | some d1 =>
      cases e2 : h2.find p with
      | none => rw [e1, e2] at hp; simp at hp
      | some d2 =>
        rw [e1, e2] at hp
        simp only [Option.map_some', Option.some.injEq] at hp
        simp [FrameRef.isEmptyRef, e1, e2, hp]

theorem read_snd_congr (h1 h2 : Heap) (r : FrameRef) (hm : MatsAgree h1 h2) :
    (FrameRef.read h1 r).2 = (FrameRef.read h2 r).2 := by
  cases r with
  | none => rfl
  | some p =>
    have hp := hm p
    cases e1 : h1.find p with
    | none =>
      cases e2 : h2.find p with
      | none => simp [FrameRef.read, e1, e2]
      | some d2 => rw [e1, e2] at hp; simp at hp
    | some d1 =>
      cases e2 : h2.find p with
      | none => rw [e1, e2] at hp; simp at hp
      | some d2 =>
        rw [e1, e2] at hp
        simp only [Option.map_some', Option.some.injEq] at hp
        simp [FrameRef.read, e1, e2, hp]

theorem sizeOf_congr (h1 h2 : Heap) (r : FrameRef) (hm : MatsAgree h1 h2) :
    FrameRef.sizeOf h1 r = FrameRef.sizeOf h2 r := by
  cases r with
  | none => rfl
  | some p =>
    have hp := hm p
    cases e1 : h1.find p with
    | none =>
      cases e2 : h2.find p with
      | none => simp [FrameRef.sizeOf, e1, e2]
      | some d2 => rw [e1, e2] at hp; simp at hp
    | some d1 =>
      cases e2 : h2.find p with
      | none => rw [e1, e2] at hp; simp at hp
      | some d2 =>
        rw [e1, e2] at hp
        simp only [Option.map_some', Option.some.injEq] at hp
        simp [FrameRef.sizeOf, e1, e2, hp]

theorem observeRef_congr (h1 h2 : Heap) (r : FrameRef) (hm : MatsAgree h1 h2) :
    observeRef h1 r = observeRef h2 r := by
  unfold observeRef
  rw [read_snd_congr h1 h2 r hm, sizeOf_congr h1 h2 r hm]

/-!  Counting lemmas for the instance population.  -/

theorem countRefs_append (l : List FrameRef) (r : FrameRef) (p : Nat) :
    countRefs (l ++ [r]) p = countRefs l p + (if r = some p then 1 else 0) := by
  induction l with
  | nil => simp [countRefs]
  | cons x xs ih =>
    have he : (x :: xs) ++ [r] = x :: (xs ++ [r]) := rfl
    rw [he]
    show (if x = some p then 1 else 0) + countRefs (xs ++ [r]) p
        = (if x = some p then 1 else 0) + countRefs xs p + (if r = some p then 1 else 0)
    rw [ih]
    omega

theorem countRefs_pos (l : List FrameRef) (i : Nat) (p : Nat)
    (hi : i < l.length) (hn : nthRef l i = some p) : 1 ≤ countRefs l p := by
  induction l generalizing i with
  | nil => simp at hi
  | cons x xs ih =>
    cases i with
    | zero =>
      simp only [nthRef] at hn
      simp [countRefs, hn]
    | succ n =>
      have := ih n (by simpa using hi) (by simpa [nthRef] using hn)
      simp only [countRefs]
      omega

theorem two_le_countRefs (l : List FrameRef) (i j : Nat) (p : Nat)
    (hi : i < l.length) (hj : j < l.length) (hij : i ≠ j)
    (hni : nthRef l i = some p) (hnj : nthRef l j = some p) :
    2 ≤ countRefs l p := by
  induction l generalizing i j with
  | nil => simp at hi
  | cons x xs ih =>
    cases i with
    | zero =>
      cases j with
      | zero => exact absurd rfl hij
      | succ m =>
        have h1 := countRefs_pos xs m p (by simpa using hj) (by simpa [nthRef] using hnj)
        simp only [nthRef] at hni
        have h2 : countRefs (x :: xs) p = 1 + countRefs xs p := by
          simp [countRefs, hni]
        omega
    | succ n =>
      cases j with
      | zero =>
        have h1 := countRefs_pos xs n p (by simpa using hi) (by simpa [nthRef] using hni)
        simp only [nthRef] at hnj
        have h2 : countRefs (x :: xs) p = 1 + countRefs xs p := by
          simp [countRefs, hnj]
        omega
      | succ m =>
        have := ih n m (by simpa using hi) (by simpa using hj) (by omega)
          (by simpa [nthRef] using hni) (by simpa [nthRef] using hnj)
        simp only [countRefs]
        omega

theorem countRefs_update (l : List FrameRef) (i : Nat) (v : FrameRef) (p : Nat)
    (hi : i < l.length) :
    countRefs (updateRef l i v) p + (if nthRef l i = some p then 1 else 0)
      = countRefs l p + (if v = some p then 1 else 0) := by
  induction l generalizing i with
  | nil => simp at hi
  | cons x xs ih =>
    cases i with
    | zero =>
      simp only [updateRef, nthRef, countRefs]
      omega
    | succ n =>
      have := ih n (by simpa using hi)
      simp only [updateRef, nthRef, countRefs]
      omega

theorem updateRef_length (l : List FrameRef) (i : Nat) (v : FrameRef) :
    (updateRef l i v).length = l.length := by
  induction l generalizing i with
  | nil => rfl
  | cons x xs ih =>
    cases i with
    | zero => rfl
    | succ n => simp [updateRef, ih]

/-!  The heap/population consistency invariant is established by the
origin world and preserved by every operation.  -/

theorem heapCount_eq_zero_of_none (h : Heap) (p : Nat) (hf : h.find p = none) :
    heapCount h p = 0 := by
  simp [heapCount, hf]

theorem find_isSome_of_heapCount_pos (h : Heap) (p : Nat) (hc : 1 ≤ heapCount h p) :
    ∃ d, h.find p = some d := by
  cases hf : h.find p with
  | none => rw [heapCount_eq_zero_of_none h p hf] at hc; omega
  | some d => exact ⟨d, rfl⟩

theorem inv_alloc_append (h : Heap) (l : List FrameRef) (d : FrameData)
    (hd : d.count = 1) (hw : World.Inv ⟨h, l⟩) :
    World.Inv ⟨(h.alloc d).1, l ++ [some h.next]⟩ := by
  obtain ⟨hc, hf⟩ := hw
  dsimp only at hc hf
  constructor
  · intro p
    by_cases hp : p = h.next
    · subst hp
      have h0 : countRefs l h.next = 0 := by
        have h2 := hc h.next
        have h3 := hf h.next (le_refl _)
        rw [heapCount_eq_zero_of_none h h.next h3] at h2
        omega
      rw [countRefs_append]
      simp [heapCount, find_alloc_self, h0, hd]
    · rw [countRefs_append]
      have := hc p
      simp only [heapCount, find_alloc_ne h d p hp]
      have hne : ¬ (some h.next = some p) := by simp; exact fun e => hp e.symm
      rw [if_neg hne]
      simpa [heapCount] using this
  · intro p hp
    have hp2 : h.next + 1 ≤ p := by simpa [Heap.alloc] using hp
    have h1 : p ≠ h.next := by omega
    rw [find_alloc_ne h d p h1]
    exact hf p (by omega)

theorem inv_mod_count_preserving (h : Heap) (l : List FrameRef) (p : Nat)
    (f : FrameData → FrameData) (hcnt : ∀ d, (f d).count = d.count)
    (hw : World.Inv ⟨h, l⟩) : World.Inv ⟨h.mod p f, l⟩ := by
  obtain ⟨hc, hf⟩ := hw
  dsimp only at hc hf
  constructor
  · intro t
    by_cases ht : t = p
    · subst ht
      cases he : h.find t with
      | none => simp only [Heap.mod, he]; exact hc t
      | some d =>
        rw [heapCount, find_mod_self h t f d he]
        have := hc t
        rw [heapCount, he] at this
        simpa [hcnt] using this
    · rw [heapCount, find_mod_ne h p t f ht]
      exact hc t
  · intro t ht
    rw [mod_next] at ht
    by_cases htp : t = p
    · subst htp
      cases he : h.find t with
      | none => simp only [Heap.mod, he]
      | some d => exact absurd (hf t ht) (by simp [he])
    · rw [find_mod_ne h p t f htp]
      exact hf t ht

theorem fresh_mod (h : Heap) (p : Nat) (f : FrameData → FrameData)
    (hf : ∀ t, h.next ≤ t → h.find t = none) :
    ∀ t, (h.mod p f).next ≤ t → (h.mod p f).find t = none := by
  intro t ht
  rw [mod_next] at ht
  by_cases htp : t = p
  · subst htp
    cases he : h.find t with
    | none => simp only [Heap.mod, he]
    | some d => exact absurd (hf t ht) (by simp [he])
  · rw [find_mod_ne h p t f htp]
    exact hf t ht

theorem countRefs_next_zero (h : Heap) (l : List FrameRef)
    (hc : ∀ p, heapCount h p = countRefs l p)
    (hf : ∀ p, h.next ≤ p → h.find p = none) :
    countRefs l h.next = 0 := by
  have h2 := hc h.next
  rw [heapCount_eq_zero_of_none h h.next (hf h.next (le_refl _))] at h2
  omega

theorem inv_append_none (h : Heap) (l : List FrameRef) (hw : World.Inv ⟨h, l⟩) :
    World.Inv ⟨h, l ++ [none]⟩ := by
  obtain ⟨hc, hf⟩ := hw
  dsimp only at hc hf
  constructor
  · intro p
    rw [countRefs_append]
    simpa using hc p
  · exact hf

theorem heapCount_eq_some (h : Heap) (p : Nat) (d : FrameData)
    (hf : h.find p = some d) : heapCount h p = d.count := by
  simp [heapCount, hf]

theorem heapCount_congr_find (h1 h2 : Heap) (p : Nat) (he : h1.find p = h2.find p) :
    heapCount h1 p = heapCount h2 p := by
  simp [heapCount, he]

theorem inv_retain_append (h : Heap) (l : List FrameRef) (q : Nat) (d : FrameData)
    (hd : h.find q = some d) (hw : World.Inv ⟨h, l⟩) :
    World.Inv ⟨h.retain q, l ++ [some q]⟩ := by
  obtain ⟨hc, hf⟩ := hw
  dsimp only at hc hf
  constructor
  · intro p
    dsimp only
    rw [countRefs_append]
    simp only [Heap.retain]
    by_cases hp : p = q
    · subst hp
      rw [heapCount_eq_some _ p _ (find_mod_self h p _ d hd)]
      have := hc p
      rw [heapCount_eq_some _ p _ hd] at this
      simp [this]
    · rw [heapCount_congr_find _ h p (find_mod_ne h q p _ hp), hc p]
      have hne : ¬ ((some q : FrameRef) = some p) := by
        simp
        exact fun e => hp e.symm
      rw [if_neg hne]
      omega
  · intro p hp
    dsimp only at hp ⊢
    exact fresh_mod h q _ hf p hp

theorem inv_alloc_update (h : Heap) (l : List FrameRef) (i : Nat) (d : FrameData)
    (hd : d.count = 1) (hi : i < l.length) (hnone : nthRef l i = none)
    (hw : World.Inv ⟨h, l⟩) :
    World.Inv ⟨(h.alloc d).1, updateRef l i (some h.next)⟩ := by
  obtain ⟨hc, hf⟩ := hw
  dsimp only at hc hf
  have h0 : countRefs l h.next = 0 := countRefs_next_zero h l hc hf
  constructor
  · intro p
    dsimp only
    have hu := countRefs_update l i (some h.next) p hi
    rw [hnone] at hu
    simp only [if_neg (by simp : ¬ ((none : FrameRef) = some p))] at hu
    by_cases hp : p = h.next
    · subst hp
      rw [heapCount_eq_some _ _ d (find_alloc_self h d)]
      rw [if_pos rfl] at hu
      omega
    · rw [heapCount_congr_find _ h p (find_alloc_ne h d p hp), hc p]
      have hne : ¬ ((some h.next : FrameRef) = some p) := by
        simp
        exact fun e => hp e.symm
      rw [if_neg hne] at hu
      omega
  · intro p hp
    dsimp only at hp ⊢
    have hp2 : h.next + 1 ≤ p := by simpa [Heap.alloc] using hp
    rw [find_alloc_ne h d p (by omega)]
    exact hf p (by omega)

theorem inv_write_copy (h : Heap) (l : List FrameRef) (i q : Nat) (d : FrameData)
    (hi : i < l.length) (hq : nthRef l i = some q) (hfind : h.find q = some d)
    (hw : World.Inv ⟨h, l⟩) :
    World.Inv ⟨((h.alloc ⟨d.mat.clone, 0, 1⟩).1).releasePtr q,
               updateRef l i (some h.next)⟩ := by
  obtain ⟨hc, hf⟩ := hw
  dsimp only at hc hf
  have hqlt2 : q < h.next := by
    by_contra hcon
    rw [hf q (by omega)] at hfind
    exact Option.noConfusion hfind
  have hqlt : q ≠ h.next := by omega
  have h0 : countRefs l h.next = 0 := countRefs_next_zero h l hc hf
  have hfa : ((h.alloc ⟨d.mat.clone, 0, 1⟩).1).find q = some d :=
    (find_alloc_ne h _ q hqlt).trans hfind
  constructor
  · intro p
    dsimp only
    simp only [Heap.releasePtr]
    have hu := countRefs_update l i (some h.next) p hi
    rw [hq] at hu
    by_cases hp : p = h.next
    · subst hp
      rw [heapCount_eq_some _ _ _
        ((find_mod_ne _ q _ _ (fun e => hqlt e.symm)).trans (find_alloc_self h _))]
      have hne : ¬ ((some q : FrameRef) = some h.next) := by
        simp
        exact fun e => hqlt e
      rw [if_neg hne, if_pos rfl] at hu
      dsimp only
      omega
    · by_cases hpq : p = q
      · subst hpq
        rw [heapCount_eq_some _ p _ (find_mod_self _ p _ d hfa)]
        have hcq := hc p
        rw [heapCount_eq_some _ p _ hfind] at hcq
        have hne : ¬ ((some h.next : FrameRef) = some p) := by
          simp
          exact fun e => hp e.symm
        rw [if_neg hne, if_pos rfl] at hu
        dsimp only
        omega
      · rw [heapCount_congr_find _ h p
          (by rw [find_mod_ne _ q p _ hpq, find_alloc_ne h _ p hp]), hc p]
        have hne1 : ¬ ((some h.next : FrameRef) = some p) := by
          simp
          exact fun e => hp e.symm
        have hne2 : ¬ ((some q : FrameRef) = some p) := by
          simp
          exact fun e => hpq e.symm
        rw [if_neg hne1, if_neg hne2] at hu
        omega
  · intro p hp
    dsimp only at hp ⊢
    simp only [Heap.releasePtr] at hp
    rw [mod_next] at hp
    have hp2 : h.next + 1 ≤ p := by simpa [Heap.alloc] using hp
    simp only [Heap.releasePtr]
    rw [find_mod_ne _ q p _ (by omega)]
    rw [find_alloc_ne h _ p (by omega)]
    exact hf p (by omega)

theorem inv_update_same (h : Heap) (l : List FrameRef) (i q : Nat)
    (hi : i < l.length) (hq : nthRef l i = some q) (hw : World.Inv ⟨h, l⟩) :
    World.Inv ⟨h, updateRef l i (some q)⟩ := by
  obtain ⟨hc, hf⟩ := hw
  dsimp only at hc hf
  constructor
  · intro p
    dsimp only
    have hu := countRefs_update l i (some q) p hi
    rw [hq] at hu
    have := hc p
    omega
  · exact hf

theorem inv_init (m : Mat) : World.Inv (World.init m) := by
  constructor
  · intro p
    by_cases hp : p = 0
    · subst hp
      simp [World.init, FrameRef.ofMat, Heap.alloc, Heap.emptyHeap, heapCount,
            Heap.find, cellsFind, countRefs]
    · simp [World.init, FrameRef.ofMat, Heap.alloc, Heap.emptyHeap, heapCount,
            Heap.find, cellsFind, countRefs, Ne.symm hp, hp]
  · intro p hp
    simp [World.init, FrameRef.ofMat, Heap.alloc, Heap.emptyHeap] at hp
    simp [World.init, FrameRef.ofMat, Heap.alloc, Heap.emptyHeap, Heap.find, cellsFind]
    omega

theorem inv_step (w : World) (op : Op) (hw : World.Inv w) : World.Inv (w.step op) := by
  obtain ⟨h, l⟩ := w
  have hcount : ∀ q dq, nthRef l q = some dq → q < l.length →
      ∃ d, h.find dq = some d := by
    intro q dq hq hql
    exact find_isSome_of_heapCount_pos h dq
      (by rw [hw.1 dq]; exact countRefs_pos l q dq hql hq)
  cases op with
  | ofMatOp m =>
    exact inv_alloc_append h l ⟨m, 0, 1⟩ rfl hw
  | shareOp i =>
    simp only [World.step]
    by_cases hi : i < l.length
    · rw [if_pos (by simpa using hi)]
      cases hn : nthRef l i with
      | none => exact inv_append_none h l hw
      | some q =>
        obtain ⟨d, hd⟩ := hcount i q hn hi
        simpa [FrameRef.share, hn] using inv_retain_append h l q d hd hw
    · rw [if_neg (by simpa using hi)]
      exact hw
  | cloneOp i =>
    simp only [World.step]
    by_cases hi : i < l.length
    · rw [if_pos (by simpa using hi)]
      cases hn : nthRef l i with
      | none =>
        simpa [FrameRef.cloneRef, hn, FrameRef.mkDefault, FrameRef.ofMat] using
          inv_alloc_append h l ⟨Mat.emptyMat, 0, 1⟩ rfl hw
      | some q =>
        obtain ⟨d, hd⟩ := hcount i q hn hi
        by_cases he : d.mat.isEmpty
        · simpa [FrameRef.cloneRef, hn, hd, he, FrameRef.mkDefault, FrameRef.ofMat] using
            inv_alloc_append h l ⟨Mat.emptyMat, 0, 1⟩ rfl hw
        · simpa [FrameRef.cloneRef, hn, hd, he, FrameRef.ofMat] using
            inv_alloc_append h l ⟨d.mat.clone, 0, 1⟩ rfl hw
    · rw [if_neg (by simpa using hi)]
      exact hw
  | readOp i =>
    simp only [World.step]
    by_cases hi : i < l.length
    · rw [if_pos (by simpa using hi)]
      cases hn : nthRef l i with
      | none => exact hw
      | some q =>
        cases hd : h.find q with
        | none => simpa [FrameRef.read, hd] using hw
        | some d =>
          simpa [FrameRef.read, hd] using
            inv_mod_count_preserving h l q
              (fun e => { e with readers := e.readers + 1 }) (fun _ => rfl) hw
    · rw [if_neg (by simpa using hi)]
      exact hw
  | releaseReadOp i =>
    simp only [World.step]
    by_cases hi : i < l.length
    · rw [if_pos (by simpa using hi)]
      cases hn : nthRef l i with
      | none => exact hw
      | some q =>
        simpa [FrameRef.release_read] using
          inv_mod_count_preserving h l q
            (fun e => { e with readers := e.readers - 1 }) (fun _ => rfl) hw
    · rw [if_neg (by simpa using hi)]
      exact hw
  | writeOp i =>
    simp only [World.step]
    by_cases hi : i < l.length
    · rw [if_pos (by simpa using hi)]
      cases hn : nthRef l i with
      | none =>
        simpa [FrameRef.write, hn] using
          inv_alloc_update h l i ⟨Mat.emptyMat, 0, 1⟩ rfl hi hn hw
      | some q =>
        obtain ⟨d, hd⟩ := hcount i q hn hi
        by_cases hg : d.count ≠ 1 ∨ d.readers > 0
        · simpa [FrameRef.write, hn, hd, hg] using
            inv_write_copy h l i q d hi hn hd hw
        · simpa [FrameRef.write, hn, hd, hg] using
            inv_update_same h l i q hi hn hw
    · rw [if_neg (by simpa using hi)]
      exact hw

theorem inv_run (w : World) (ops : List Op) (hw : World.Inv w) :
    World.Inv (w.run ops) := by
  induction ops generalizing w with
  | nil => exact hw
  | cons op ops ih => exact ih _ (inv_step w op hw)

theorem alloc_snd (h : Heap) (d : FrameData) : (h.alloc d).2 = h.next := rfl

theorem nthRef_some_lt (l : List FrameRef) (j q : Nat) (hj : nthRef l j = some q) :
    j < l.length := by
  induction l generalizing j with
  | nil => simp [nthRef] at hj
  | cons x xs ih =>
    cases j with
    | zero => simp
    | succ n => simpa using ih n (by simpa [nthRef] using hj)

theorem observeRef_eq_of_mat_eq (h1 h2 : Heap) (q : Nat)
    (he : (h1.find q).map FrameData.mat = (h2.find q).map FrameData.mat) :
    observeRef h1 (some q) = observeRef h2 (some q) := by
  cases e1 : h1.find q with
  | none =>
    cases e2 : h2.find q with
    | none => simp [observeRef, FrameRef.read, FrameRef.sizeOf, e1, e2]
    | some d2 => rw [e1, e2] at he; simp at he
  | some d1 =>
    cases e2 : h2.find q with
    | none => rw [e1, e2] at he; simp at he
    | some d2 =>
      rw [e1, e2] at he
      simp only [Option.map_some', Option.some.injEq] at he
      simp [observeRef, FrameRef.read, FrameRef.sizeOf, e1, e2, he]

theorem isolation_of_inv (w : World) (hw : World.Inv w) (i j : Nat) (hne : j ≠ i)
    (m : Mat) :
    observeRef (writeThenMutate w i m) (nthRef w.refs j)
      = observeRef w.heap (nthRef w.refs j) := by
  obtain ⟨h, l⟩ := w
  have hc := hw.1
  have hf := hw.2
  dsimp only at hc hf ⊢
  cases hj : nthRef l j with
  | none => simp [observeRef, FrameRef.read, FrameRef.sizeOf, writeThenMutate]
  | some qj =>
    have hjlt : j < l.length := nthRef_some_lt l j qj hj
    obtain ⟨dj, hdj⟩ := find_isSome_of_heapCount_pos h qj
      (by rw [hc qj]; exact countRefs_pos l j qj hjlt hj)
    have hqjlt : qj < h.next := by
      by_contra hcon
      rw [hf qj (by omega)] at hdj
      exact Option.noConfusion hdj
    apply observeRef_eq_of_mat_eq
    cases hi2 : nthRef l i with
    | none =>
      simp only [writeThenMutate, hi2, FrameRef.write, alloc_snd, Heap.setMat]
      rw [find_mod_ne _ h.next qj _ (by omega)]
      rw [find_alloc_ne h _ qj (by omega)]
    | some qi =>
      have hilt : i < l.length := nthRef_some_lt l i qi hi2
      obtain ⟨di, hdi⟩ := find_isSome_of_heapCount_pos h qi
        (by rw [hc qi]; exact countRefs_pos l i qi hilt hi2)
      by_cases hg : di.count ≠ 1 ∨ di.readers > 0
      · simp only [writeThenMutate, hi2, FrameRef.write, hdi, if_pos hg, alloc_snd,
                   Heap.setMat, Heap.releasePtr]
        rw [find_mod_ne _ h.next qj _ (by omega)]
        by_cases hqq : qj = qi
        · subst hqq
          rw [find_mod_self _ qj _ di ((find_alloc_ne h _ qj (by omega)).trans hdi), hdj]
          have hde : di = dj := by
            rw [hdi] at hdj
            exact Option.some.inj hdj
          simp [hde]
        · rw [find_mod_ne _ qi qj _ hqq, find_alloc_ne h _ qj (by omega)]
      · have hd1 : di.count = 1 := by
          rcases not_or.mp hg with ⟨e, _⟩
          omega
        have hcnt : countRefs l qi = 1 := by
          rw [← hc qi, heapCount_eq_some h qi di hdi]
          exact hd1
        have hqq : qj ≠ qi := by
          intro e
          subst e
          have := two_le_countRefs l i j qj hilt hjlt hne.symm hi2 hj
          omega
        simp only [writeThenMutate, hi2, FrameRef.write, hdi, if_neg hg, Heap.setMat]
        rw [find_mod_ne _ qi qj _ hqq]

/-- C5: for all sequences of construction, copy, clone, read/release_read
and write operations on SharedFrames (FrameRefs) sharing a common origin,
mutating the buffer returned by write() on one FrameRef never changes the
pixel contents observed (via read or size) by any other FrameRef. -/
theorem cow_isolation (m0 mNew : Mat) (ops : List Op) (i j : Nat) (hne : j ≠ i) :
    observeRef (writeThenMutate (World.run (World.init m0) ops) i mNew)
        (nthRef (World.run (World.init m0) ops).refs j)
      = observeRef (World.run (World.init m0) ops).heap
        (nthRef (World.run (World.init m0) ops).refs j) :=
  isolation_of_inv (World.run (World.init m0) ops)
    (inv_run (World.init m0) ops (inv_init m0)) i j hne mNew

/-- Witness for C5 at a concrete world: one origin frame, one sharing copy,
a write-and-mutate on instance 0 observed by instance 1. -/
theorem cow_isolation_witness :
    observeRef
        (writeThenMutate (World.run (World.init ⟨1, 1, [4]⟩) [Op.shareOp 0]) 0 ⟨1, 1, [9]⟩)
        (nthRef (World.run (World.init ⟨1, 1, [4]⟩) [Op.shareOp 0]).refs 1)
      = observeRef (World.run (World.init ⟨1, 1, [4]⟩) [Op.shareOp 0]).heap
        (nthRef (World.run (World.init ⟨1, 1, [4]⟩) [Op.shareOp 0]).refs 1) :=
  cow_isolation ⟨1, 1, [4]⟩ ⟨1, 1, [9]⟩ [Op.shareOp 0] 0 1 (by decide)

/-- C4: FrameRef::write returns a view onto the existing backing cell
exactly when that cell is exclusively owned (use count 1) and its reader
counter shows no active readers; in every other case it deep-copies the
backing buffer into a fresh, exclusively owned cell (same pixels, count 1,
no readers, at an address not previously in the heap), returns a view onto
the copy, and severs this instance from all prior holders (the old cell's
count drops by one).  Stated for well-formed states: the cell exists, its
reader counter is non-negative (read/release_read calls balanced), and
addresses at or above `next` are free. -/
theorem write_cow_guard (h : Heap) (q : Nat) (d : FrameData)
    (hq : h.find q = some d) (hrd : 0 ≤ d.readers)
    (hfr : ∀ p, h.next ≤ p → h.find p = none) :
    (((FrameRef.write h (some q)).2.2 = q) ↔ (d.count = 1 ∧ d.readers = 0))
    ∧ ((d.count = 1 ∧ d.readers = 0) → FrameRef.write h (some q) = (h, some q, q))
    ∧ (¬ (d.count = 1 ∧ d.readers = 0) →
        (FrameRef.write h (some q)).2.2 = h.next
        ∧ h.find h.next = none
        ∧ (FrameRef.write h (some q)).2.1 = some h.next
        ∧ ((FrameRef.write h (some q)).1).find h.next = some ⟨d.mat, 0, 1⟩
        ∧ ((FrameRef.write h (some q)).1).find q
            = some ⟨d.mat, d.readers, d.count - 1⟩) := by
  have hqn : q ≠ h.next := by
    intro e
    rw [e, hfr h.next (le_refl _)] at hq
    exact Option.noConfusion hq
  by_cases hg : d.count ≠ 1 ∨ d.readers > 0
  · have hng : ¬ (d.count = 1 ∧ d.readers = 0) := by
      rcases hg with e | e
      · exact fun hcc => e hcc.1
      · exact fun hcc => by rw [hcc.2] at e; omega
    refine ⟨⟨fun hp => ?_, fun hcc => absurd hcc hng⟩,
            fun hcc => absurd hcc hng, fun _ => ?_⟩
    · exfalso
      simp only [FrameRef.write, hq, if_pos hg, alloc_snd] at hp
      exact hqn hp.symm
    · refine ⟨?_, hfr h.next (le_refl _), ?_, ?_, ?_⟩
      · simp only [FrameRef.write, hq, if_pos hg, alloc_snd]
      · simp only [FrameRef.write, hq, if_pos hg, alloc_snd]
      · simp only [FrameRef.write, hq, if_pos hg, alloc_snd, Heap.releasePtr]
        rw [find_mod_ne _ q h.next _ (fun e => hqn e.symm), find_alloc_self]
        rfl
      · simp only [FrameRef.write, hq, if_pos hg, alloc_snd, Heap.releasePtr]
        rw [find_mod_self _ q _ d ((find_alloc_ne h _ q hqn).trans hq)]
  · have hcc : d.count = 1 ∧ d.readers = 0 := by
      rcases not_or.mp hg with ⟨e1, e2⟩
      exact ⟨by omega, by omega⟩
    have hwr : FrameRef.write h (some q) = (h, some q, q) := by
      simp only [FrameRef.write, hq, if_neg hg]
    exact ⟨⟨fun _ => hcc, fun _ => by rw [hwr]⟩, fun _ => hwr,
           fun hn => absurd hcc hn⟩

/-- Witness for C4 at a concrete shared cell (use count 2): write
deep-copies into a fresh cell and decrements the old cell. -/
theorem write_cow_guard_witness :
    (((FrameRef.write exHeapShared (some 0)).2.2 = 0) ↔ ((2 : Nat) = 1 ∧ (0 : Int) = 0))
    ∧ (((2 : Nat) = 1 ∧ (0 : Int) = 0) →
        FrameRef.write exHeapShared (some 0) = (exHeapShared, some 0, 0))
    ∧ (¬ ((2 : Nat) = 1 ∧ (0 : Int) = 0) →
        (FrameRef.write exHeapShared (some 0)).2.2 = 1
        ∧ exHeapShared.find 1 = none
        ∧ (FrameRef.write exHeapShared (some 0)).2.1 = some 1
        ∧ ((FrameRef.write exHeapShared (some 0)).1).find 1 = some ⟨⟨1, 1, [3]⟩, 0, 1⟩
        ∧ ((FrameRef.write exHeapShared (some 0)).1).find 0
            = some ⟨⟨1, 1, [3]⟩, 0, 1⟩) :=
  write_cow_guard exHeapShared 0 ⟨⟨1, 1, [3]⟩, 0, 2⟩ rfl (by decide)
    (fun p hp => by
      have hp2 : 1 ≤ p := hp
      simp only [exHeapShared, Heap.find, cellsFind]
      rw [if_neg (by omega)])

/-- C9: an empty SharedFrame — null after reset(), or default-constructed —
is a valid, inert state: read returns the empty buffer, size() is (0,0),
empty() is true, clone() yields an empty SharedFrame, write() yields a
view of a (re-initialized) empty buffer, and the diagnostic counters are
benign; no operation fails. -/
theorem empty_frame_ref_safe (h : Heap) :
    (FrameRef.read h none = (h, Mat.emptyMat))
    ∧ FrameRef.release_read h none = h
    ∧ FrameRef.sizeOf h none = (0, 0)
    ∧ FrameRef.isEmptyRef h none = true
    ∧ FrameRef.use_count h none = 0
    ∧ FrameRef.reader_count h none = 0
    ∧ FrameRef.cloneRef h none = FrameRef.mkDefault h
    ∧ FrameRef.isEmptyRef (FrameRef.cloneRef h none).1 (FrameRef.cloneRef h none).2 = true
    ∧ ((FrameRef.write h none).1).find (FrameRef.write h none).2.2
        = some ⟨Mat.emptyMat, 0, 1⟩
    ∧ FrameRef.isEmptyRef (FrameRef.mkDefault h).1 (FrameRef.mkDefault h).2 = true
    ∧ FrameRef.sizeOf (FrameRef.mkDefault h).1 (FrameRef.mkDefault h).2 = (0, 0)
    ∧ (FrameRef.read (FrameRef.mkDefault h).1 (FrameRef.mkDefault h).2).2 = Mat.emptyMat
    ∧ FrameRef.use_count (FrameRef.mkDefault h).1 (FrameRef.mkDefault h).2 = 1
    ∧ FrameRef.reader_count (FrameRef.mkDefault h).1 (FrameRef.mkDefault h).2 = 0
    ∧ FrameRef.isEmptyRef
        (FrameRef.cloneRef (FrameRef.mkDefault h).1 (FrameRef.mkDefault h).2).1
        (FrameRef.cloneRef (FrameRef.mkDefault h).1 (FrameRef.mkDefault h).2).2 = true
    ∧ FrameRef.write (FrameRef.mkDefault h).1 (FrameRef.mkDefault h).2
        = ((FrameRef.mkDefault h).1, (FrameRef.mkDefault h).2, h.next) := by
  refine ⟨rfl, rfl, rfl, rfl, rfl, rfl, rfl, ?_, ?_, ?_, ?_, ?_, ?_, ?_, ?_, ?_⟩
  · simp [FrameRef.cloneRef, FrameRef.mkDefault, FrameRef.ofMat, FrameRef.isEmptyRef,
          alloc_snd, find_alloc_self, Mat.isEmpty, Mat.emptyMat]
  · simp [FrameRef.write, alloc_snd, find_alloc_self]
  · simp [FrameRef.mkDefault, FrameRef.ofMat, FrameRef.isEmptyRef,
          alloc_snd, find_alloc_self, Mat.isEmpty, Mat.emptyMat]
  · simp [FrameRef.mkDefault, FrameRef.ofMat, FrameRef.sizeOf,
          alloc_snd, find_alloc_self, Mat.emptyMat]
  · simp [FrameRef.mkDefault, FrameRef.ofMat, FrameRef.read, alloc_snd, find_alloc_self]
  · simp [FrameRef.mkDefault, FrameRef.ofMat, FrameRef.use_count, alloc_snd, find_alloc_self]
  · simp [FrameRef.mkDefault, FrameRef.ofMat, FrameRef.reader_count, alloc_snd, find_alloc_self]
  · simp [FrameRef.mkDefault, FrameRef.ofMat, FrameRef.cloneRef, FrameRef.isEmptyRef,
          alloc_snd, find_alloc_self, Mat.isEmpty, Mat.emptyMat]
  · simp [FrameRef.mkDefault, FrameRef.ofMat, FrameRef.write, alloc_snd, find_alloc_self,
          Mat.isEmpty, Mat.emptyMat]

/-- C10: consume_frame on a FrameBuffer holding an unconsumed frame returns
a SharedFrame sharing the backing cell of the frame the buffer keeps (the
slot is not cleared, only the consumed flag is set), so the cell's use
count is at least 2 afterwards, and a subsequent write() on the returned
frame deep-copies into a fresh cell carrying the same pixels, leaving the
buffer's copy untouched. -/
theorem consume_shares_backing (h : Heap) (fb : FrameBuffer) (q : Nat) (d : FrameData)
    (hcf : fb.current_frame = some q) (hun : fb.frame_consumed = false)
    (hq : h.find q = some d) (hc1 : 1 ≤ d.count)
    (hfr : ∀ p, h.next ≤ p → h.find p = none) :
    (FrameBuffer.consume_frame h fb).2.2 = some (some q)
    ∧ (FrameBuffer.consume_frame h fb).2.1.current_frame = some q
    ∧ (FrameBuffer.consume_frame h fb).2.1.frame_consumed = true
    ∧ FrameRef.use_count (FrameBuffer.consume_frame h fb).1 (some q) = d.count + 1
    ∧ 2 ≤ FrameRef.use_count (FrameBuffer.consume_frame h fb).1 (some q)
    ∧ (FrameRef.write (FrameBuffer.consume_frame h fb).1 (some q)).2.2 = h.next
    ∧ h.find h.next = none
    ∧ ((FrameRef.write (FrameBuffer.consume_frame h fb).1 (some q)).1).find h.next
        = some ⟨d.mat, 0, 1⟩
    ∧ (((FrameRef.write (FrameBuffer.consume_frame h fb).1 (some q)).1).find q).map
        FrameData.mat = some d.mat := by
  have hqn : q ≠ h.next := by
    intro e
    rw [e, hfr h.next (le_refl _)] at hq
    exact Option.noConfusion hq
  have hcons : FrameBuffer.consume_frame h fb
      = (h.retain q, { fb with frame_consumed := true }, some (some q)) := by
    simp [FrameBuffer.consume_frame, hun, FrameRef.share, hcf]
  rw [hcons]
  have hret : (h.retain q).find q = some ⟨d.mat, d.readers, d.count + 1⟩ :=
    find_mod_self h q _ d hq
  have hretnext : (h.retain q).next = h.next := mod_next h q _
  have hguard : (⟨d.mat, d.readers, d.count + 1⟩ : FrameData).count ≠ 1
      ∨ (⟨d.mat, d.readers, d.count + 1⟩ : FrameData).readers > 0 :=
    Or.inl (by dsimp only; omega)
  have hwr : FrameRef.write (h.retain q) (some q)
      = ((((h.retain q).alloc ⟨d.mat, 0, 1⟩).1).releasePtr q,
         some (h.retain q).next, (h.retain q).next) := by
    simp only [FrameRef.write, hret, if_pos hguard, alloc_snd]
    rfl
  refine ⟨rfl, by simp [hcf], rfl, ?_, ?_, ?_, hfr h.next (le_refl _), ?_, ?_⟩
  · simp [FrameRef.use_count, hret]
  · simp [FrameRef.use_count, hret]
    omega
  · rw [hwr]
    exact hretnext
  · rw [hwr]
    simp only [Heap.releasePtr]
    rw [find_mod_ne _ q h.next _ (fun e => hqn e.symm)]
    rw [← hretnext, find_alloc_self]
  · rw [hwr]
    simp only [Heap.releasePtr]
    rw [find_mod_self _ q _ ⟨d.mat, d.readers, d.count + 1⟩
      ((find_alloc_ne (h.retain q) _ q (by omega)).trans hret)]
    rfl

/-- Witness for C10: a buffer holding cell 0 of exHeapOwn (use count 1,
unconsumed); after consume the count is 2 and write copies. -/
theorem consume_shares_backing_witness :
    (FrameBuffer.consume_frame exHeapOwn exFBHold).2.2 = some (some 0)
    ∧ (FrameBuffer.consume_frame exHeapOwn exFBHold).2.1.current_frame = some 0
    ∧ (FrameBuffer.consume_frame exHeapOwn exFBHold).2.1.frame_consumed = true
    ∧ FrameRef.use_count (FrameBuffer.consume_frame exHeapOwn exFBHold).1 (some 0) = 2
    ∧ 2 ≤ FrameRef.use_count (FrameBuffer.consume_frame exHeapOwn exFBHold).1 (some 0)
    ∧ (FrameRef.write (FrameBuffer.consume_frame exHeapOwn exFBHold).1 (some 0)).2.2 = 1
    ∧ exHeapOwn.find 1 = none
    ∧ ((FrameRef.write (FrameBuffer.consume_frame exHeapOwn exFBHold).1 (some 0)).1).find 1
        = some ⟨⟨1, 1, [3]⟩, 0, 1⟩
    ∧ (((FrameRef.write (FrameBuffer.consume_frame exHeapOwn exFBHold).1 (some 0)).1).find 0).map
        FrameData.mat = some ⟨1, 1, [3]⟩ :=
  consume_shares_backing exHeapOwn exFBHold 0 ⟨⟨1, 1, [3]⟩, 0, 1⟩ rfl rfl rfl
    (by decide)
    (fun p hp => by
      have hp2 : 1 ≤ p := hp
      simp only [exHeapOwn, Heap.find, cellsFind]
      rw [if_neg (by omega)])

theorem store_all_dropped (h : Heap) (rs : List FrameRef) :
    ∀ fb : FrameBuffer, (∀ x ∈ rs, FrameRef.isEmptyRef h x = false) →
      fb.frame_consumed = false →
      FrameBuffer.store_all h fb rs
        = (h, { fb with frames_dropped := fb.frames_dropped + rs.length }) := by
  induction rs with
  | nil =>
    intro fb _ _
    simp [FrameBuffer.store_all]
  | cons r rest ih =>
    intro fb hrs hfb
    have hr := hrs r (by simp)
    have hrest : ∀ x ∈ rest, FrameRef.isEmptyRef h x = false :=
      fun x hx => hrs x (by simp [hx])
    simp only [FrameBuffer.store_all, FrameBuffer.store_frame, hr, hfb]
    simp only [Bool.false_eq_true, if_false, if_true]
    rw [ih { current_frame := fb.current_frame, frame_consumed := false,
             frames_dropped := fb.frames_dropped + 1,
             frames_generated := fb.frames_generated } hrest rfl]
    have he : fb.frames_dropped + 1 + rest.length
        = fb.frames_dropped + (rest.length + 1) := by omega
    simp [he, hfb]

/-- C1 (amended): after storing a non-empty frame into a FrameBuffer whose
previous frame was consumed, followed by any number of further non-empty
stores with no intervening consume, frames_generated has grown by exactly
1 and frames_dropped by the number of further stores (the code drops each
NEW frame while the slot is unconsumed): the FIRST stored frame survives
in the slot and the following consume_frame returns exactly it, with its
pixel contents intact. -/
theorem store_drop_accounting (h : Heap) (fb : FrameBuffer) (r : FrameRef)
    (rs : List FrameRef) (hcons : fb.frame_consumed = true)
    (hr : FrameRef.isEmptyRef h r = false)
    (hrs : ∀ x ∈ rs, FrameRef.isEmptyRef h x = false) :
    (FrameBuffer.store_all h fb (r :: rs)).2.frames_generated = fb.frames_generated + 1
    ∧ (FrameBuffer.store_all h fb (r :: rs)).2.frames_dropped
        = fb.frames_dropped + rs.length
    ∧ (FrameBuffer.store_all h fb (r :: rs)).2.current_frame = r
    ∧ (FrameBuffer.store_all h fb (r :: rs)).2.frame_consumed = false
    ∧ (FrameBuffer.consume_frame (FrameBuffer.store_all h fb (r :: rs)).1
        (FrameBuffer.store_all h fb (r :: rs)).2).2.2 = some r
    ∧ (FrameRef.read (FrameBuffer.consume_frame (FrameBuffer.store_all h fb (r :: rs)).1
        (FrameBuffer.store_all h fb (r :: rs)).2).1 r).2 = (FrameRef.read h r).2 := by
  cases r with
  | none => simp [FrameRef.isEmptyRef] at hr
  | some q =>
    have hstep : FrameBuffer.store_frame h fb (some q)
        = ((FrameRef.assign h fb.current_frame (some q)).1,
           { fb with current_frame := some q, frame_consumed := false,
                     frames_generated := fb.frames_generated + 1 }) := by
      simp [FrameBuffer.store_frame, hr, hcons, FrameRef.assign, FrameRef.share]
    have agree : MatsAgree (FrameRef.assign h fb.current_frame (some q)).1 h :=
      matsAgree_assign h fb.current_frame (some q)
    have hrs1 : ∀ x ∈ rs,
        FrameRef.isEmptyRef (FrameRef.assign h fb.current_frame (some q)).1 x = false :=
      fun x hx => (isEmptyRef_congr _ h x agree).trans (hrs x hx)
    have hall : FrameBuffer.store_all h fb (some q :: rs)
        = ((FrameRef.assign h fb.current_frame (some q)).1,
           { fb with current_frame := some q, frame_consumed := false,
                     frames_generated := fb.frames_generated + 1,
                     frames_dropped := fb.frames_dropped + rs.length }) := by
      simp only [FrameBuffer.store_all, hstep]
      rw [store_all_dropped _ rs _ hrs1 rfl]
    rw [hall]
    refine ⟨rfl, rfl, rfl, rfl, ?_, ?_⟩
    · simp [FrameBuffer.consume_frame, FrameRef.share]
    · simp only [FrameBuffer.consume_frame]
      simp only [if_neg (by simp : ¬ (false = true))]
      simp only [FrameRef.share]
      exact read_snd_congr _ h (some q)
        (matsAgree_trans _ _ _ (matsAgree_retain _ q) agree)

/-- C1 counterexample: with N = 2 non-empty stores and no consume, the
code reports frames_generated = 1 (the claim demands N = 2) and the
subsequent consume returns the FIRST stored frame (pixel 7), not the
last-stored one (pixel 9): FrameBuffer::store_frame drops the incoming
frame while the slot is unconsumed. -/
theorem store_drop_claim_counterexample :
    exStores.2.frames_generated = 1
    ∧ ¬ exStores.2.frames_generated = 2
    ∧ exStores.2.frames_dropped = 1
    ∧ exConsume.2.2 = some exF1.2
    ∧ (FrameRef.read exConsume.1 exF1.2).2 = ⟨1, 1, [7]⟩
    ∧ ¬ (FrameRef.read exConsume.1 exF1.2).2 = ⟨1, 1, [9]⟩ := by
  decide

/-- Witness for the amended C1 at the concrete two-store execution. -/
theorem store_drop_accounting_witness :
    (FrameBuffer.store_all exF2.1 exFB.2 (exF1.2 :: [exF2.2])).2.frames_generated
        = exFB.2.frames_generated + 1
    ∧ (FrameBuffer.store_all exF2.1 exFB.2 (exF1.2 :: [exF2.2])).2.frames_dropped
        = exFB.2.frames_dropped + [exF2.2].length
    ∧ (FrameBuffer.store_all exF2.1 exFB.2 (exF1.2 :: [exF2.2])).2.current_frame = exF1.2
    ∧ (FrameBuffer.store_all exF2.1 exFB.2 (exF1.2 :: [exF2.2])).2.frame_consumed = false
    ∧ (FrameBuffer.consume_frame (FrameBuffer.store_all exF2.1 exFB.2 (exF1.2 :: [exF2.2])).1
        (FrameBuffer.store_all exF2.1 exFB.2 (exF1.2 :: [exF2.2])).2).2.2 = some exF1.2
    ∧ (FrameRef.read
        (FrameBuffer.consume_frame (FrameBuffer.store_all exF2.1 exFB.2 (exF1.2 :: [exF2.2])).1
          (FrameBuffer.store_all exF2.1 exFB.2 (exF1.2 :: [exF2.2])).2).1 exF1.2).2
        = (FrameRef.read exF2.1 exF1.2).2 :=
  store_drop_accounting exF2.1 exFB.2 exF1.2 [exF2.2] (by decide) (by decide)
    (by decide)

/-!  Slot and index lemmas for TripleBufferRenderer.  -/

theorem getSlot_setSlot_self (t : TripleBufferRenderer) (i : Nat) (v : BufferSlot) :
    (t.setSlot i v).getSlot i = v := by
  rcases i with _ | _ | n <;> rfl

theorem setSlot_write_idx (t : TripleBufferRenderer) (i : Nat) (v : BufferSlot) :
    (t.setSlot i v).write_idx = t.write_idx := by
  rcases i with _ | _ | n <;> rfl

theorem setSlot_upload_idx (t : TripleBufferRenderer) (i : Nat) (v : BufferSlot) :
    (t.setSlot i v).upload_idx = t.upload_idx := by
  rcases i with _ | _ | n <;> rfl

theorem setSlot_display_idx (t : TripleBufferRenderer) (i : Nat) (v : BufferSlot) :
    (t.setSlot i v).display_idx = t.display_idx := by
  rcases i with _ | _ | n <;> rfl

theorem reset_idx (h : Heap) (g : GLState) (t : TripleBufferRenderer) :
    (TripleBufferRenderer.reset h g t).2.2.write_idx = t.write_idx
    ∧ (TripleBufferRenderer.reset h g t).2.2.upload_idx = t.upload_idx
    ∧ (TripleBufferRenderer.reset h g t).2.2.display_idx = t.display_idx := by
  unfold TripleBufferRenderer.reset
  by_cases hi : t.initialized = false
  · simp [hi]
  · simp [hi]

theorem ensure_gl_idx (h : Heap) (g : GLState) (t : TripleBufferRenderer) (w hh : Nat) :
    (TripleBufferRenderer.ensure_gl h g t w hh).2.2.write_idx = t.write_idx
    ∧ (TripleBufferRenderer.ensure_gl h g t w hh).2.2.upload_idx = t.upload_idx
    ∧ (TripleBufferRenderer.ensure_gl h g t w hh).2.2.display_idx = t.display_idx := by
  unfold TripleBufferRenderer.ensure_gl
  by_cases hc : t.initialized = true ∧ w = t.width ∧ hh = t.height
  · simp [hc]
  · rw [if_neg hc]
    by_cases hi : t.initialized = true
    · simp only [hi, if_true]
      exact ⟨(reset_idx h g t).1, (reset_idx h g t).2.1, (reset_idx h g t).2.2⟩
    · simp [hi]

theorem async_upload_idx (h : Heap) (g : GLState) (t : TripleBufferRenderer) (i : Nat) :
    (TripleBufferRenderer.async_upload h g t i).2.2.write_idx = t.write_idx
    ∧ (TripleBufferRenderer.async_upload h g t i).2.2.upload_idx = t.upload_idx
    ∧ (TripleBufferRenderer.async_upload h g t i).2.2.display_idx = t.display_idx := by
  unfold TripleBufferRenderer.async_upload
  by_cases he : FrameRef.isEmptyRef h (t.getSlot i).frame = true
  · simp [he]
  · simp only [he, Bool.false_eq_true, if_false]
    exact ensure_gl_idx _ g t _ _

theorem reset_ready_mono (h : Heap) (g : GLState) (t : TripleBufferRenderer) (k : Nat)
    (hk : (t.getSlot k).ready = false) :
    ((TripleBufferRenderer.reset h g t).2.2.getSlot k).ready = false := by
  unfold TripleBufferRenderer.reset
  by_cases hi : t.initialized = false
  · simp [hi, hk]
  · simp only [hi, Bool.false_eq_true, if_false]
    rcases k with _ | _ | n <;>
      simp [TripleBufferRenderer.getSlot, TripleBufferRenderer.resetSlot]

theorem ensure_gl_ready_mono (h : Heap) (g : GLState) (t : TripleBufferRenderer)
    (w hh k : Nat) (hk : (t.getSlot k).ready = false) :
    ((TripleBufferRenderer.ensure_gl h g t w hh).2.2.getSlot k).ready = false := by
  unfold TripleBufferRenderer.ensure_gl
  by_cases hc : t.initialized = true ∧ w = t.width ∧ hh = t.height
  · simp [hc, hk]
  · rw [if_neg hc]
    by_cases hi : t.initialized = true
    · simp only [hi, if_true]
      have := reset_ready_mono h g t k hk
      rcases k with _ | _ | n <;>
        simpa [TripleBufferRenderer.getSlot] using this
    · simp only [hi, Bool.false_eq_true, if_false]
      rcases k with _ | _ | n <;>
        simpa [TripleBufferRenderer.getSlot] using hk

theorem async_upload_ready_mono (h : Heap) (g : GLState) (t : TripleBufferRenderer)
    (i k : Nat) (hk : (t.getSlot k).ready = false) :
    ((TripleBufferRenderer.async_upload h g t i).2.2.getSlot k).ready = false := by
  unfold TripleBufferRenderer.async_upload
  by_cases he : FrameRef.isEmptyRef h (t.getSlot i).frame = true
  · simp [he, hk]
  · simp only [he, Bool.false_eq_true, if_false]
    exact ensure_gl_ready_mono _ g t _ _ k hk

/-- C2 (amended): when the slot named by write_idx_ is ready, update()
sets write_idx_ to the old upload index, upload_idx_ to the old display
index and display_idx_ to the old upload index (the stale local of the
second swap; the old write index ends up holding no role whenever the
indices were distinct), and the ready flag of the OLD write slot is
cleared. -/
theorem update_rotation_behavior (h : Heap) (g : GLState) (t : TripleBufferRenderer)
    (hready : (t.getSlot t.write_idx).ready = true) :
    (TripleBufferRenderer.update h g t).2.2.write_idx = t.upload_idx
    ∧ (TripleBufferRenderer.update h g t).2.2.upload_idx = t.display_idx
    ∧ (TripleBufferRenderer.update h g t).2.2.display_idx = t.upload_idx
    ∧ ((TripleBufferRenderer.update h g t).2.2.getSlot t.write_idx).ready = false := by
  unfold TripleBufferRenderer.update
  rw [if_pos hready]
  dsimp only
  refine ⟨?_, ?_, ?_, ?_⟩
  · rw [(async_upload_idx _ _ _ _).1, setSlot_write_idx]
  · rw [(async_upload_idx _ _ _ _).2.2, setSlot_display_idx]
  · rfl
  · apply async_upload_ready_mono
    rw [getSlot_setSlot_self]

/-- C2 counterexample: from the initial renderer (indices (0,1,2)), after
one non-empty submit_frame and one update() the indices are (1,2,1) —
not the (2,0,1) the claimed rotation write→upload, upload→display,
display→write would produce — and the ready flag was cleared on old write
slot 0, not on the slot now holding the write role. -/
theorem rotation_claim_counterexample :
    exRUpd.2.2.write_idx = 1
    ∧ exRUpd.2.2.upload_idx = 2
    ∧ exRUpd.2.2.display_idx = 1
    ∧ ¬ exRUpd.2.2.upload_idx = exRSub.2.write_idx
    ∧ ¬ exRUpd.2.2.write_idx = exRSub.2.display_idx := by
  decide

/-- Witness for the amended C2 at the concrete post-submit renderer. -/
theorem update_rotation_behavior_witness :
    (TripleBufferRenderer.update exRSub.1 GLState.init exRSub.2).2.2.write_idx
        = exRSub.2.upload_idx
    ∧ (TripleBufferRenderer.update exRSub.1 GLState.init exRSub.2).2.2.upload_idx
        = exRSub.2.display_idx
    ∧ (TripleBufferRenderer.update exRSub.1 GLState.init exRSub.2).2.2.display_idx
        = exRSub.2.upload_idx
    ∧ ((TripleBufferRenderer.update exRSub.1 GLState.init exRSub.2).2.2.getSlot
        exRSub.2.write_idx).ready = false :=
  update_rotation_behavior exRSub.1 GLState.init exRSub.2 (by decide)

/-- C6: the pairwise-distinctness of the three role indices is violated by
the code: after one submit_frame and one update() from the initial state,
write_idx_ and display_idx_ both hold the old upload index (update()
stores a stale local into display_idx_), so slot 0 holds no role. -/
theorem role_indices_collide :
    exRUpd.2.2.write_idx = exRUpd.2.2.display_idx
    ∧ exRUpd.2.2.write_idx = 1
    ∧ exRUpd.2.2.upload_idx = 2
    ∧ exRUpd.2.2.display_idx = 1 := by
  decide

/-- C3: before any submit, a freshly constructed TripleBufferRenderer has
no GL resources and get_texture_id() returns 0 — the GL null texture
name — with width and height 0; the claim (and the header comment
"Always returns valid texture even if no frames submitted yet") promise a
valid non-null handle instead. -/
theorem initial_texture_id_zero (h : Heap) :
    TripleBufferRenderer.get_texture_id (TripleBufferRenderer.init h).2 = 0
    ∧ (TripleBufferRenderer.init h).2.width = 0
    ∧ (TripleBufferRenderer.init h).2.height = 0
    ∧ (TripleBufferRenderer.init h).2.initialized = false := by
  refine ⟨?_, rfl, rfl, rfl⟩
  simp [TripleBufferRenderer.get_texture_id, TripleBufferRenderer.init]

theorem reset_of_not_init (h : Heap) (g : GLState) (t : TripleBufferRenderer)
    (hi : t.initialized = false) :
    TripleBufferRenderer.reset h g t = (h, g, t) := by
  simp [TripleBufferRenderer.reset, hi]

theorem reset_initialized_false (h : Heap) (g : GLState) (t : TripleBufferRenderer) :
    (TripleBufferRenderer.reset h g t).2.2.initialized = false := by
  unfold TripleBufferRenderer.reset
  by_cases hi : t.initialized = false
  · simp [hi]
  · simp [hi]

theorem renderer_reset_idem (h : Heap) (g : GLState) (t : TripleBufferRenderer) :
    TripleBufferRenderer.reset (TripleBufferRenderer.reset h g t).1
        (TripleBufferRenderer.reset h g t).2.1 (TripleBufferRenderer.reset h g t).2.2
      = TripleBufferRenderer.reset h g t := by
  rw [reset_of_not_init _ _ _ (reset_initialized_false h g t)]

theorem manager_reset_idem (h : Heap) (g : GLState) (tm : TextureManager) :
    TextureManager.reset (TextureManager.reset h g tm).1
        (TextureManager.reset h g tm).2.1 (TextureManager.reset h g tm).2.2
      = TextureManager.reset h g tm := by
  simp [TextureManager.reset, FrameRef.resetRef, FrameRef.release]

theorem submit_accepts (h : Heap) (t : TripleBufferRenderer) (r : FrameRef) (now : Nat)
    (hr : FrameRef.isEmptyRef h r = false) :
    ((TripleBufferRenderer.submit_frame h t r now).2.getSlot t.write_idx).ready = true
    ∧ ((TripleBufferRenderer.submit_frame h t r now).2.getSlot t.write_idx).frame = r := by
  cases r with
  | none => simp [FrameRef.isEmptyRef] at hr
  | some q =>
    simp only [TripleBufferRenderer.submit_frame, hr, Bool.false_eq_true, if_false]
    rw [getSlot_setSlot_self]
    exact ⟨rfl, by simp [FrameRef.assign, FrameRef.share]⟩

theorem upload_accepts (h : Heap) (g : GLState) (tm : TextureManager) (r : FrameRef)
    (hr : FrameRef.isEmptyRef h r = false) (hg : 1 ≤ g.next_id) :
    (TextureManager.upload_frame h g tm r).2.2.texture_id ≠ 0
    ∧ (TextureManager.upload_frame h g tm r).2.2.width = (FrameRef.read h r).2.cols
    ∧ (TextureManager.upload_frame h g tm r).2.2.height = (FrameRef.read h r).2.rows
    ∧ (TextureManager.upload_frame h g tm r).2.2.last_frame = r := by
  cases r with
  | none => simp [FrameRef.isEmptyRef] at hr
  | some q =>
    have hr2 : (match h.find q with
        | none => true
        | some d => d.mat.isEmpty) = false := hr
    have hfd : ∃ d, h.find q = some d ∧ d.mat.isEmpty = false := by
      cases hf : h.find q with
      | none => rw [hf] at hr2; simp at hr2
      | some d => rw [hf] at hr2; exact ⟨d, rfl, hr2⟩
    obtain ⟨d, hf, hde⟩ := hfd
    have hm : (FrameRef.read h (some q)).2 = d.mat := by
      simp [FrameRef.read, hf]
    have hnz : ¬ (d.mat.cols = 0 ∨ d.mat.rows = 0) := by
      simp [Mat.isEmpty] at hde
      omega
    simp only [TextureManager.upload_frame, hr, Bool.false_eq_true, if_false]
    rw [hm]
    simp only [hde, Bool.false_eq_true, if_false, if_neg hnz]
    refine ⟨?_, by simp, by simp, by simp [FrameRef.assign, FrameRef.share]⟩
    unfold TextureManager.ensure_texture_created
    by_cases ht : tm.texture_id = 0
    · simp only [ht, if_true]
      dsimp only [GLState.genTex]
      omega
    · simp [ht]

/-- C7 (amended): reset() is idempotent on both TripleBufferRenderer and
TextureManager (the second call deletes nothing and changes nothing, so
there is no double-free), and both components accept new work afterwards —
indeed from any state: a non-empty submit_frame marks the write slot
ready, and a non-empty upload_frame creates a non-zero texture and caches
the frame.  However TripleBufferRenderer::reset does not restore the role
indices (nor, when the GL resources were never created, the stored frames
and ready flags), so a reset renderer is NOT behaviourally a freshly
constructed one. -/
theorem reset_idempotent_reusable :
    (∀ (h : Heap) (g : GLState) (t : TripleBufferRenderer),
        TripleBufferRenderer.reset (TripleBufferRenderer.reset h g t).1
            (TripleBufferRenderer.reset h g t).2.1 (TripleBufferRenderer.reset h g t).2.2
          = TripleBufferRenderer.reset h g t)
    ∧ (∀ (h : Heap) (g : GLState) (tm : TextureManager),
        TextureManager.reset (TextureManager.reset h g tm).1
            (TextureManager.reset h g tm).2.1 (TextureManager.reset h g tm).2.2
          = TextureManager.reset h g tm)
    ∧ (∀ (h : Heap) (t : TripleBufferRenderer) (r : FrameRef) (now : Nat),
        FrameRef.isEmptyRef h r = false →
        ((TripleBufferRenderer.submit_frame h t r now).2.getSlot t.write_idx).ready = true)
    ∧ (∀ (h : Heap) (g : GLState) (tm : TextureManager) (r : FrameRef),
        FrameRef.isEmptyRef h r = false → 1 ≤ g.next_id →
        (TextureManager.upload_frame h g tm r).2.2.texture_id ≠ 0
        ∧ (TextureManager.upload_frame h g tm r).2.2.last_frame = r) :=
  ⟨renderer_reset_idem, manager_reset_idem,
   fun h t r now hr => (submit_accepts h t r now hr).1,
   fun h g tm r hr hg =>
     ⟨(upload_accepts h g tm r hr hg).1, (upload_accepts h g tm r hr hg).2.2.2⟩⟩

/-- Witness for the amended C7: a fresh renderer accepts a concrete
non-empty submit (its write slot becomes ready). -/
theorem reset_idempotent_reusable_witness :
    ((TripleBufferRenderer.submit_frame exRF.1 exRT0.2 exRF.2 0).2.getSlot
        exRT0.2.write_idx).ready = true :=
  reset_idempotent_reusable.2.2.1 exRF.1 exRT0.2 exRF.2 0 (by decide)

/-- C7 counterexample: a renderer that processed one frame and was then
reset() is observably different from a freshly constructed one: running
the identical suffix [submit 1×5, update, submit 1×6, update] on the
reset renderer initializes the GL resources with width 5, while the same
suffix on a fresh renderer leaves it uninitialized with width 0 (reset
kept the rotated — and degenerate — role indices and the stored frames). -/
theorem renderer_reset_not_fresh :
    exRSuf.2.2.width = 5
    ∧ exRSufFresh.2.2.width = 0
    ∧ ¬ exRSuf.2.2.width = exRSufFresh.2.2.width
    ∧ exRSuf.2.2.initialized = true
    ∧ exRSufFresh.2.2.initialized = false := by
  decide

/-- C8: calling FrameBuffer::store_frame, TripleBufferRenderer::submit_frame
or TextureManager::upload_frame with an empty frame is a silent no-op: the
heap and every component state (stored frame, flags, counters, texture
handle, dimensions, last_frame) are returned unchanged. -/
theorem empty_input_noop (h : Heap) (fb : FrameBuffer) (t : TripleBufferRenderer)
    (g : GLState) (tm : TextureManager) (r : FrameRef) (now : Nat)
    (he : FrameRef.isEmptyRef h r = true) :
    FrameBuffer.store_frame h fb r = (h, fb)
    ∧ TripleBufferRenderer.submit_frame h t r now = (h, t)
    ∧ TextureManager.upload_frame h g tm r = (h, g, tm) := by
  refine ⟨?_, ?_, ?_⟩ <;>
    simp [FrameBuffer.store_frame, TripleBufferRenderer.submit_frame,
          TextureManager.upload_frame, he]

/-- Witness for C8 on a concrete empty (null) frame. -/
theorem empty_input_noop_witness :
    FrameBuffer.store_frame Heap.emptyHeap exFBHold none = (Heap.emptyHeap, exFBHold)
    ∧ TripleBufferRenderer.submit_frame Heap.emptyHeap exRT0.2 none 5
        = (Heap.emptyHeap, exRT0.2)
    ∧ TextureManager.upload_frame Heap.emptyHeap GLState.init ⟨0, 0, 0, none⟩ none
        = (Heap.emptyHeap, GLState.init, ⟨0, 0, 0, none⟩) :=
  empty_input_noop Heap.emptyHeap exFBHold exRT0.2 GLState.init ⟨0, 0, 0, none⟩ none 5 rfl
